import Mathlib

/-!
Verification of the monkey-kd front end (lexer, Pratt parser, AST rendering)
and of its evaluation semantics.

The Go sources are shallowly embedded: each Go function becomes a Lean
function of the same name over explicit state values.  Go interface values
that may be `nil` (`ast.Expression`, slices returned by failing parse steps)
are embedded as `Option` values.  The parser's mutually recursive descent is
embedded with an explicit fuel parameter: every function takes a `Nat` fuel,
returns `none` when the fuel runs out, and all recursive calls decrease the
fuel, so the definitions are structurally recursive and computable.
-/

-- Token kinds; Go declares `type TokenType string`, so kinds are plain strings.
namespace token

def ILLEGAL : String := "ILLEGAL"
def EOF : String := "EOF"
def IDENTIFIER : String := "IDENTIFIER"
def INT : String := "INT"
def ASSIGN : String := "="
def PLUS : String := "+"
def MINUS : String := "-"
def BANG : String := "!"
def ASTERISK : String := "*"
def SLASH : String := "/"
def LT : String := "<"
def GT : String := ">"
def COMMA : String := ","
def SEMICOLON : String := ";"
def LPAREN : String := "("
def RPAREN : String := ")"
def LBRACE : String := "\x7b"
def RBRACE : String := "\x7d"
def FUNCTION : String := "FUNCTION"
def LET : String := "LET"
def TRUE : String := "TRUE"
def FALSE : String := "FALSE"
def IF : String := "IF"
def ELSE : String := "ELSE"
def RETURN : String := "RETURN"
def EQ : String := "=="
def NOT_EQ : String := "!="

end token

/-- `token.Token`: a kind (`Type` in Go; `type` here) and the literal text. -/
structure Token where
  type : String
  literal : String
deriving DecidableEq

/-- The keyword table of package `token`. -/
def keywords : List (String × String) :=
  [("fn", token.FUNCTION), ("let", token.LET), ("true", token.TRUE),
   ("false", token.FALSE), ("if", token.IF), ("else", token.ELSE),
   ("return", token.RETURN)]

/-- `token.LookupIdentifier`: keyword table lookup, defaulting to IDENTIFIER. -/
def LookupIdentifier (identifier : String) : String :=
  match (keywords.find? (fun kv => kv.1 == identifier)) with
  | some kv => kv.2
  | none => token.IDENTIFIER

/-- The NUL byte the Go lexer uses as its end-of-input sentinel. -/
def charNul : Char := Char.ofNat 0

/-- `lexer.Lexer`: input bytes plus the two cursors and the current byte. -/
structure Lexer where
  input : List Char
  position : Nat
  readPosition : Nat
  char : Char
deriving DecidableEq

/-- `lexer.readChar`: load the byte at `readPosition` (NUL past the end) and
advance both cursors. -/
def Lexer.readChar (st : Lexer) : Lexer :=
  let c := if st.input.length ≤ st.readPosition then charNul
           else st.input.getD st.readPosition charNul
  ⟨st.input, st.readPosition, st.readPosition + 1, c⟩

/-- `lexer.New`: zero-valued lexer over the input, primed with one `readChar`. -/
def Lexer.new (input : String) : Lexer :=
  Lexer.readChar ⟨input.toList, 0, 0, charNul⟩

/-- `lexer.peekChar`: the byte at `readPosition` without advancing. -/
def Lexer.peekChar (st : Lexer) : Char :=
  if st.input.length ≤ st.readPosition then charNul
  else st.input.getD st.readPosition charNul

/-- The whitespace set of `lexer.skipWhitespace`. -/
def isWS (c : Char) : Bool :=
  c == ' ' || c == '\t' || c == '\n' || c == '\r'

/-- `lexer.isLetter`. -/
def isLetter (c : Char) : Bool :=
  ('a' ≤ c && c ≤ 'z') || ('A' ≤ c && c ≤ 'Z') || c == '_'

/-- `lexer.isDigit`. -/
def isDigit (c : Char) : Bool :=
  '0' ≤ c && c ≤ '9'

/-- A reads-while loop of the lexer (`skipWhitespace`, `readIdentifier`,
`readNumber` all have this shape).  The fuel only bounds the loop; the
wrappers below supply fuel that can never run out mid-run, because each
`readChar` advances `readPosition`, and once `readPosition` passes the end of
the input `char` becomes NUL, which satisfies none of the loop predicates. -/
def readRunF (p : Char → Bool) : Nat → Lexer → Lexer
  | 0, st => st
  | f + 1, st => if p st.char then readRunF p f st.readChar else st

/-- `lexer.skipWhitespace`. -/
def Lexer.skipWhitespace (st : Lexer) : Lexer :=
  readRunF isWS (st.input.length + 1 - st.position) st

/-- `lexer.readIdentifier`: consume the maximal letter run and return the
slice `input[position:lex.position]`. -/
def Lexer.readIdentifier (st : Lexer) : String × Lexer :=
  let st2 := readRunF isLetter (st.input.length + 1 - st.position) st
  (⟨(st.input.drop st.position).take (st2.position - st.position)⟩, st2)

/-- `lexer.readNumber`: consume the maximal digit run. -/
def Lexer.readNumber (st : Lexer) : String × Lexer :=
  let st2 := readRunF isDigit (st.input.length + 1 - st.position) st
  (⟨(st.input.drop st.position).take (st2.position - st.position)⟩, st2)

/-- `lexer.newToken`: a single-byte token. -/
def newToken (tokenType : String) (c : Char) : Token :=
  ⟨tokenType, ⟨[c]⟩⟩

/-- `lexer.NextToken`: Go's switch over the current byte, ported case by case
(the cases are on distinct bytes, so an if-chain is equivalent). -/
def Lexer.NextToken (st0 : Lexer) : Token × Lexer :=
  let st := st0.skipWhitespace
  if st.char = '=' then
    if st.peekChar = '=' then (⟨token.EQ, "=="⟩, st.readChar.readChar)
    else (newToken token.ASSIGN st.char, st.readChar)
  else if st.char = '+' then (newToken token.PLUS st.char, st.readChar)
  else if st.char = '-' then (newToken token.MINUS st.char, st.readChar)
  else if st.char = '!' then
    if st.peekChar = '=' then (⟨token.NOT_EQ, "!="⟩, st.readChar.readChar)
    else (newToken token.BANG st.char, st.readChar)
  else if st.char = '/' then (newToken token.SLASH st.char, st.readChar)
  else if st.char = '*' then (newToken token.ASTERISK st.char, st.readChar)
  else if st.char = '<' then (newToken token.LT st.char, st.readChar)
  else if st.char = '>' then (newToken token.GT st.char, st.readChar)
  else if st.char = ';' then (newToken token.SEMICOLON st.char, st.readChar)
  else if st.char = ',' then (newToken token.COMMA st.char, st.readChar)
  else if st.char = '(' then (newToken token.LPAREN st.char, st.readChar)
  else if st.char = ')' then (newToken token.RPAREN st.char, st.readChar)
  else if st.char = '{' then (newToken token.LBRACE st.char, st.readChar)
  else if st.char = '}' then (newToken token.RBRACE st.char, st.readChar)
  else if st.char = charNul then (⟨token.EOF, ""⟩, st.readChar)
  else if isLetter st.char then
    let r := st.readIdentifier
    (⟨LookupIdentifier r.1, r.1⟩, r.2)
  else if isDigit st.char then
    let r := st.readNumber
    (⟨token.INT, r.1⟩, r.2)
  else (newToken token.ILLEGAL st.char, st.readChar)

/-- The first `n` tokens produced by successive `NextToken` calls. -/
def lexTokens : Nat → Lexer → List Token
  | 0, _ => []
  | n + 1, st =>
    let r := st.NextToken
    r.1 :: lexTokens n r.2


/-- Go's `lower(c)`: force the ASCII case bit (`c | ('x' - 'X')`). -/
def goLower (c : Char) : Char := Char.ofNat (c.toNat ||| 0x20)

/-- Digit value of a byte for `strconv.ParseUint` (`0-9`, `a-z`, `A-Z`). -/
def digitVal (c : Char) : Option Nat :=
  if '0' ≤ c ∧ c ≤ '9' then some (c.toNat - '0'.toNat)
  else if 'a' ≤ c ∧ c ≤ 'z' then some (c.toNat - 'a'.toNat + 10)
  else if 'A' ≤ c ∧ c ≤ 'Z' then some (c.toNat - 'A'.toNat + 10)
  else none

/-- The scanning loop of `strconv.underscoreOK`; `saw` is the category of the
previous byte exactly as in the Go source. -/
def underscoreOKLoop (hex : Bool) : Char → List Char → Bool
  | saw, [] => saw != '_'
  | saw, c :: rest =>
    if ('0' ≤ c ∧ c ≤ '9') ∨ (hex ∧ 'a' ≤ goLower c ∧ goLower c ≤ 'f') then
      underscoreOKLoop hex '0' rest
    else if c = '_' then
      if saw != '0' then false else underscoreOKLoop hex '_' rest
    else if saw = '_' then false
    else underscoreOKLoop hex '!' rest

/-- `strconv.underscoreOK`: underscores must separate digits (or follow a
base prefix). -/
def underscoreOK (s : List Char) : Bool :=
  let s1 := match s with
    | c :: rest => if c = '-' ∨ c = '+' then rest else s
    | [] => s
  match s1 with
  | c0 :: c1 :: rest =>
    if c0 = '0' ∧ (goLower c1 = 'b' ∨ goLower c1 = 'o' ∨ goLower c1 = 'x') then
      underscoreOKLoop (goLower c1 = 'x') '0' rest
    else underscoreOKLoop false '^' s1
  | _ => underscoreOKLoop false '^' s1

/-- The digit-accumulation loop of `strconv.ParseUint`.  The accumulator is an
unbounded `Nat`; the range check against `2^64 - 1` is performed by the caller,
which is equivalent for error reporting because the running value only grows.
Returns `none` on a syntax error, otherwise the value and whether an
underscore was seen. -/
def parseUintLoop (base : Nat) : List Char → Nat → Bool → Option (Nat × Bool)
  | [], n, u => some (n, u)
  | c :: rest, n, u =>
    if c = '_' then parseUintLoop base rest n true
    else match digitVal c with
      | none => none
      | some d => if base ≤ d then none else parseUintLoop base rest (n * base + d) u

/-- The base-0 prefix detection of `strconv.ParseUint`: `0b`/`0o`/`0x` (with
at least one byte after the prefix), legacy leading-zero octal, else decimal;
returns the base and the remaining digits. -/
def detectBase (s : List Char) : Nat × List Char :=
  match s with
  | '0' :: c1 :: rest =>
    if 3 ≤ s.length ∧ goLower c1 = 'b' then (2, rest)
    else if 3 ≤ s.length ∧ goLower c1 = 'o' then (8, rest)
    else if 3 ≤ s.length ∧ goLower c1 = 'x' then (16, rest)
    else (8, c1 :: rest)
  | _ => (10, s)

/-- `strconv.ParseUint(s, 0, 64)`: base detection from the prefix (`0b`/`0o`/
`0x`, legacy leading-zero octal), digit scan, underscore and range checks.
All error classes collapse to `none`. -/
def goParseUint64 (s : List Char) : Option Nat :=
  if s = [] then none
  else
    let det : Nat × List Char := detectBase s
    match parseUintLoop det.1 det.2 0 false with
    | none => none
    | some (n, u) =>
      if u ∧ ¬underscoreOK s then none
      else if 2 ^ 64 - 1 < n then none
      else some n

/-- The leading-sign handling of `strconv.ParseInt`: whether the value is
negated, and the bytes after the sign. -/
def stripSign (l : List Char) : Bool × List Char :=
  match l with
  | '+' :: rest => (false, rest)
  | '-' :: rest => (true, rest)
  | _ => (false, l)

/-- `strconv.ParseInt(s, 0, 64)`: strip the sign, convert unsigned, check the
signed 64-bit range.  `none` for any syntax or range error (the parser only
tests `err != nil`). -/
def goParseInt (s : String) : Option Int :=
  match s.toList with
  | [] => none
  | l =>
    let sn : Bool × List Char := stripSign l
    match goParseUint64 sn.2 with
    | none => none
    | some un =>
      if !sn.1 ∧ 2 ^ 63 ≤ un then none
      else if sn.1 ∧ 2 ^ 63 < un then none
      else if sn.1 then some (-(un : Int)) else some (un : Int)

/-- Lower-case hex digit. -/
def hexDigitChar (n : Nat) : Char :=
  if n < 10 then Char.ofNat ('0'.toNat + n) else Char.ofNat ('a'.toNat + n - 10)

/-- Escaping of one byte under `strconv.Quote` (`%q`), for ASCII input; bytes
above 0x7f also get a `\x` escape here (Go would use a wider escape), which no
lexer-produced literal contains. -/
def quoteChar (c : Char) : List Char :=
  if c = '"' then ['\\', '"']
  else if c = '\\' then ['\\', '\\']
  else if 0x20 ≤ c.toNat ∧ c.toNat ≤ 0x7e then [c]
  else if c = Char.ofNat 7 then ['\\', 'a']
  else if c = Char.ofNat 8 then ['\\', 'b']
  else if c = Char.ofNat 12 then ['\\', 'f']
  else if c = '\n' then ['\\', 'n']
  else if c = '\r' then ['\\', 'r']
  else if c = '\t' then ['\\', 't']
  else if c = Char.ofNat 11 then ['\\', 'v']
  else ['\\', 'x', hexDigitChar (c.toNat / 16 % 16), hexDigitChar (c.toNat % 16)]

/-- `fmt`'s `%q` verb on a string: `strconv.Quote`. -/
def goQuote (s : String) : String :=
  ⟨'"' :: ((s.toList.map quoteChar).flatten ++ ['"'])⟩


/-- `ast.Identifier`. -/
structure Ident where
  token : Token
  value : String

-- The AST node variants of package `ast`.  Fields Go types as a nilable
-- interface value (`ast.Expression`) or as a slice that a failing parse step
-- leaves `nil` become `Option`s; `none` is Go's `nil`.
mutual

inductive Expr where
  | identE : Ident → Expr
  | intLit : Token → Int → Expr
  | boolE : Token → Bool → Expr
  | prefixE : Token → String → Option Expr → Expr
  | infixE : Token → Option Expr → String → Option Expr → Expr
  | ifE : Token → Option Expr → Block → Option Block → Expr
  | funcLit : Token → Option (List Ident) → Block → Expr
  | callE : Token → Option Expr → Option (List (Option Expr)) → Expr

inductive Stmt where
  | letS : Token → Ident → Option Expr → Stmt
  | returnS : Token → Option Expr → Stmt
  | exprS : Token → Option Expr → Stmt

inductive Block where
  | mk : Token → List Stmt → Block

end

/-- Ranging over a possibly-nil Go slice: `nil` iterates zero times. -/
def paramsOrNil (l : Option (List Ident)) : List Ident := l.getD []

/-- `strings.Join(xs, ", ")`. -/
def joinComma (xs : List String) : String := String.intercalate ", " xs

-- The `String()` methods of package `ast`, one per node type.  The result is
-- an `Option`: `none` models the nil-pointer-dereference panic Go would hit
-- when rendering a node whose required child is `nil`.
mutual

def exprString : Expr → Option String
  | .identE i => some i.value
  | .intLit tok _ => some tok.literal
  | .boolE tok _ => some tok.literal
  | .prefixE _ op right => do
      let rs ← optExprString right
      some ("(" ++ op ++ rs ++ ")")
  | .infixE _ left op right => do
      let ls ← optExprString left
      let rs ← optExprString right
      some ("(" ++ ls ++ " " ++ op ++ " " ++ rs ++ ")")
  | .ifE _ cond cons alt => do
      let condStr ← optExprString cond
      let consStr ← blockString cons
      let altStr ← match alt with
        | none => some ""
        | some b => do
            let bs ← blockString b
            some ("else " ++ bs)
      some ("if" ++ condStr ++ " " ++ consStr ++ altStr)
  | .funcLit tok params body => do
      let bodyStr ← blockString body
      some (tok.literal ++ "(" ++ joinComma ((paramsOrNil params).map Ident.value)
        ++ ") " ++ bodyStr)
  | .callE _ fn args => do
      let fnStr ← optExprString fn
      let argStrs ← (match args with
        | none => some []
        | some l => argListString l)
      some (fnStr ++ "(" ++ joinComma argStrs ++ ")")

def optExprString : Option Expr → Option String
  | none => none
  | some e => exprString e

def argListString : List (Option Expr) → Option (List String)
  | [] => some []
  | a :: rest => do
      let s ← optExprString a
      let others ← argListString rest
      some (s :: others)

def stmtString : Stmt → Option String
  | .letS tok name value => do
      let valStr ← match value with
        | none => some ""
        | some e => exprString e
      some (tok.literal ++ " " ++ name.value ++ " = " ++ valStr ++ ";")
  | .returnS tok value => do
      let valStr ← match value with
        | none => some ""
        | some e => exprString e
      some (tok.literal ++ " " ++ valStr ++ ";")
  | .exprS _ e =>
      match e with
      | none => some ""
      | some ex => exprString ex

def stmtListString : List Stmt → Option String
  | [] => some ""
  | s :: rest => do
      let a ← stmtString s
      let b ← stmtListString rest
      some (a ++ b)

def blockString : Block → Option String
  | .mk _ stmts => stmtListString stmts

end

/-- `ast.Program.String`: concatenate the statement renderings. -/
def programString (stmts : List Stmt) : Option String := stmtListString stmts


-- The precedence levels of package `parser` (Go: an iota block starting at 1).
def LOWEST : Nat := 1
def EQUALS : Nat := 2
def LESSGREATER : Nat := 3
def SUM : Nat := 4
def PRODUCT : Nat := 5
def PREFIXPREC : Nat := 6  -- Go names this level PREFIX
def CALL : Nat := 7

/-- The `precedences` map of package `parser`. -/
def precedenceOf (t : String) : Option Nat :=
  if t == token.EQ then some EQUALS
  else if t == token.NOT_EQ then some EQUALS
  else if t == token.LT then some LESSGREATER
  else if t == token.GT then some LESSGREATER
  else if t == token.PLUS then some SUM
  else if t == token.MINUS then some SUM
  else if t == token.SLASH then some PRODUCT
  else if t == token.ASTERISK then some PRODUCT
  else if t == token.LPAREN then some CALL
  else none

/-- `parser.Parser`: the lexer being pulled, the two-token window, and the
accumulated error list.  The two handler maps are embedded as the fixed
dispatch tables `hasPrefixFn` / `hasInfixFn` below, which record exactly the
registrations performed in `parser.New`. -/
structure Parser where
  lex : Lexer
  curToken : Token
  peekToken : Token
  errors : List String

/-- `parser.nextToken`: slide the window, pulling one token from the lexer. -/
def Parser.nextToken (p : Parser) : Parser :=
  let r := p.lex.NextToken
  ⟨r.2, p.peekToken, r.1, p.errors⟩

/-- `parser.New` over `lexer.New(input)`: zero-valued window, then two
`nextToken` calls.  (Go's zero value for a Token is empty kind and literal.) -/
def Parser.new (input : String) : Parser :=
  (Parser.nextToken (Parser.nextToken ⟨Lexer.new input, ⟨"", ""⟩, ⟨"", ""⟩, []⟩))

def Parser.curTokenIs (p : Parser) (t : String) : Bool := p.curToken.type == t

def Parser.peekTokenIs (p : Parser) (t : String) : Bool := p.peekToken.type == t

/-- Append one message to the parser's error list. -/
def Parser.addError (p : Parser) (msg : String) : Parser :=
  ⟨p.lex, p.curToken, p.peekToken, p.errors ++ [msg]⟩

/-- `parser.peekError`: the `fmt.Sprintf("expected next token to be %s, got %s
instead", tok, parse.peekToken.Type)` message (`%s` of a TokenType is its
string value). -/
def Parser.peekError (p : Parser) (t : String) : Parser :=
  p.addError ("expected next token to be " ++ t ++ ", got " ++ p.peekToken.type ++ " instead")

/-- `parser.expectPeek`: advance on a match, record `peekError` otherwise. -/
def Parser.expectPeek (p : Parser) (t : String) : Bool × Parser :=
  if p.peekTokenIs t then (true, p.nextToken) else (false, p.peekError t)

/-- `parser.noPrefixParseFnError`. -/
def Parser.noPrefixFnError (p : Parser) (t : String) : Parser :=
  p.addError ("no prefix parse function for " ++ t ++ " found")

/-- `parser.peekPrecedence`: table lookup defaulting to LOWEST. -/
def Parser.peekPrecedence (p : Parser) : Nat := (precedenceOf p.peekToken.type).getD LOWEST

/-- `parser.curPrecedence`. -/
def Parser.curPrecedence (p : Parser) : Nat := (precedenceOf p.curToken.type).getD LOWEST

/-- The token kinds with a registered prefix handler (see `parser.New`). -/
def hasPrefixFn (t : String) : Bool :=
  t == token.IDENTIFIER || t == token.INT || t == token.BANG || t == token.MINUS ||
  t == token.TRUE || t == token.FALSE || t == token.LPAREN || t == token.IF ||
  t == token.FUNCTION

/-- The token kinds registered to `parseInfixExpression` (see `parser.New`);
`token.LPAREN` is registered separately to `parseCallExpression`. -/
def hasInfixOpFn (t : String) : Bool :=
  t == token.PLUS || t == token.MINUS || t == token.SLASH || t == token.ASTERISK ||
  t == token.EQ || t == token.NOT_EQ || t == token.LT || t == token.GT

/-- `parser.parseIdentifier` (a prefix handler; never nil). -/
def Parser.parseIdentifier (p : Parser) : Option Expr × Parser :=
  (some (.identE ⟨p.curToken, p.curToken.literal⟩), p)

/-- `parser.parseIntegerLiteral`: convert via `strconv.ParseInt(lit, 0, 64)`;
on error, record `fmt.Sprintf("could not parse %q as integer", lit)` and
return nil. -/
def Parser.parseIntegerLiteral (p : Parser) : Option Expr × Parser :=
  match goParseInt p.curToken.literal with
  | none => (none, p.addError ("could not parse " ++ goQuote p.curToken.literal ++ " as integer"))
  | some v => (some (.intLit p.curToken v), p)

/-- `parser.parseBoolean` (never nil). -/
def Parser.parseBoolean (p : Parser) : Option Expr × Parser :=
  (some (.boolE p.curToken (p.curTokenIs token.TRUE)), p)

-- The mutually recursive descent of package `parser`, with an explicit fuel
-- (`none` = fuel ran out; the inner `Option Expr`/`Option Stmt` is Go's nil).
-- Loops in the Go bodies become their own fueled functions (`...LoopF`,
-- `skipToSemiF`); `runPrefixF` is the `prefixParseFns` dispatch.
mutual

/-- The body of `parser.ParseProgram`: loop until the current token is EOF,
appending each non-nil statement. -/
def parseProgramLoopF : Nat → List Stmt → Parser → Option (List Stmt × Parser)
  | 0, _, _ => none
  | f + 1, acc, p =>
    if p.curTokenIs token.EOF then some (acc, p)
    else do
      let r ← parseStatementF f p
      let acc2 := match r.1 with
        | some s => acc ++ [s]
        | none => acc
      parseProgramLoopF f acc2 r.2.nextToken

/-- `parser.parseStatement`: dispatch on the current token kind. -/
def parseStatementF : Nat → Parser → Option (Option Stmt × Parser)
  | 0, _ => none
  | f + 1, p =>
    if p.curToken.type == token.LET then parseLetStatementF f p
    else if p.curToken.type == token.RETURN then parseReturnStatementF f p
    else parseExprStatementF f p

/-- `parser.parseLetStatement`: `let`, identifier, `=`, the bound expression,
then scan forward to a semicolon. -/
def parseLetStatementF : Nat → Parser → Option (Option Stmt × Parser)
  | 0, _ => none
  | f + 1, p =>
    let letTok := p.curToken
    match p.expectPeek token.IDENTIFIER with
    | (false, p1) => some (none, p1)
    | (true, p1) =>
      let name : Ident := ⟨p1.curToken, p1.curToken.literal⟩
      match p1.expectPeek token.ASSIGN with
      | (false, p2) => some (none, p2)
      | (true, p2) => do
          let r ← parseExpressionF f LOWEST p2.nextToken
          let rs ← skipToSemiF f r.2
          some (some (.letS letTok name r.1), rs)

/-- The `for !parse.curTokenIs(token.SEMICOLON) { parse.nextToken() }` loop of
`parseLetStatement` and `parseReturnStatement`. -/
def skipToSemiF : Nat → Parser → Option Parser
  | 0, _ => none
  | f + 1, p =>
    if p.curTokenIs token.SEMICOLON then some p else skipToSemiF f p.nextToken

/-- `parser.parseReturnStatement`. -/
def parseReturnStatementF : Nat → Parser → Option (Option Stmt × Parser)
  | 0, _ => none
  | f + 1, p =>
    let retTok := p.curToken
    do
      let r ← parseExpressionF f LOWEST p.nextToken
      let rs ← skipToSemiF f r.2
      some (some (.returnS retTok r.1), rs)

/-- `parser.parseExpressionStatement`: parse at LOWEST, then consume an
optional trailing semicolon. -/
def parseExprStatementF : Nat → Parser → Option (Option Stmt × Parser)
  | 0, _ => none
  | f + 1, p =>
    let tok := p.curToken
    do
      let r ← parseExpressionF f LOWEST p
      let p2 := if r.2.peekTokenIs token.SEMICOLON then r.2.nextToken else r.2
      some (some (.exprS tok r.1), p2)

/-- `parser.parseExpression`: prefix dispatch (recording a "no prefix parse
function" error when the map has no entry), then the infix loop. -/
def parseExpressionF : Nat → Nat → Parser → Option (Option Expr × Parser)
  | 0, _, _ => none
  | f + 1, prec, p =>
    if hasPrefixFn p.curToken.type then do
      let r ← runPrefixF f p
      infixLoopF f prec r.1 r.2
    else some (none, p.noPrefixFnError p.curToken.type)

/-- The `prefixParseFns` dispatch of `parser.New` (the final branch is
unreachable: callers guard with `hasPrefixFn`). -/
def runPrefixF : Nat → Parser → Option (Option Expr × Parser)
  | 0, _ => none
  | f + 1, p =>
    let t := p.curToken.type
    if t == token.IDENTIFIER then some p.parseIdentifier
    else if t == token.INT then some p.parseIntegerLiteral
    else if t == token.BANG || t == token.MINUS then parsePrefixExprF f p
    else if t == token.TRUE || t == token.FALSE then some p.parseBoolean
    else if t == token.LPAREN then parseGroupedExprF f p
    else if t == token.IF then parseIfExprF f p
    else if t == token.FUNCTION then parseFunctionLiteralF f p
    else some (none, p)

/-- The `for !peekTokenIs(SEMICOLON) && precedence < peekPrecedence` loop of
`parser.parseExpression`, combining the accumulated left expression with each
infix handler's result (nil infix entry ends the loop). -/
def infixLoopF : Nat → Nat → Option Expr → Parser → Option (Option Expr × Parser)
  | 0, _, _, _ => none
  | f + 1, prec, left, p =>
    if p.peekTokenIs token.SEMICOLON = false ∧ prec < p.peekPrecedence then
      if hasInfixOpFn p.peekToken.type then do
        let r ← parseInfixExprF f left p.nextToken
        infixLoopF f prec r.1 r.2
      else if p.peekToken.type == token.LPAREN then do
        let r ← parseCallExprF f left p.nextToken
        infixLoopF f prec r.1 r.2
      else some (left, p)
    else some (left, p)

/-- `parser.parsePrefixExpression` (Go name: parsePrefixExpression): operator
from the current token, right side parsed at the PREFIX precedence level. -/
def parsePrefixExprF : Nat → Parser → Option (Option Expr × Parser)
  | 0, _ => none
  | f + 1, p =>
    let tok := p.curToken
    do
      let r ← parseExpressionF f PREFIXPREC p.nextToken
      some (some (.prefixE tok tok.literal r.1), r.2)

/-- `parser.parseInfixExpression`: the right side is parsed at the current
operator's own precedence (left associativity for equal precedences). -/
def parseInfixExprF : Nat → Option Expr → Parser → Option (Option Expr × Parser)
  | 0, _, _ => none
  | f + 1, left, p =>
    let tok := p.curToken
    let op := p.curToken.literal
    let prec := p.curPrecedence
    do
      let r ← parseExpressionF f prec p.nextToken
      some (some (.infixE tok left op r.1), r.2)

/-- `parser.parseGroupedExpression`. -/
def parseGroupedExprF : Nat → Parser → Option (Option Expr × Parser)
  | 0, _ => none
  | f + 1, p => do
      let r ← parseExpressionF f LOWEST p.nextToken
      match r.2.expectPeek token.RPAREN with
      | (false, p2) => some (none, p2)
      | (true, p2) => some (r.1, p2)

/-- `parser.parseIfExpression`. -/
def parseIfExprF : Nat → Parser → Option (Option Expr × Parser)
  | 0, _ => none
  | f + 1, p =>
    let tok := p.curToken
    match p.expectPeek token.LPAREN with
    | (false, p1) => some (none, p1)
    | (true, p1) => do
        let r ← parseExpressionF f LOWEST p1.nextToken
        match r.2.expectPeek token.RPAREN with
        | (false, p3) => some (none, p3)
        | (true, p3) =>
          match p3.expectPeek token.LBRACE with
          | (false, p4) => some (none, p4)
          | (true, p4) => do
              let rb ← parseBlockStatementF f p4
              if rb.2.peekTokenIs token.ELSE then
                match rb.2.nextToken.expectPeek token.LBRACE with
                | (false, p6) => some (none, p6)
                | (true, p6) => do
                    let rb2 ← parseBlockStatementF f p6
                    some (some (.ifE tok r.1 rb.1 (some rb2.1)), rb2.2)
              else some (some (.ifE tok r.1 rb.1 none), rb.2)

/-- `parser.parseFunctionLiteral`. -/
def parseFunctionLiteralF : Nat → Parser → Option (Option Expr × Parser)
  | 0, _ => none
  | f + 1, p =>
    let tok := p.curToken
    match p.expectPeek token.LPAREN with
    | (false, p1) => some (none, p1)
    | (true, p1) => do
        let rp ← parseFunctionParametersF f p1
        match rp.2.expectPeek token.LBRACE with
        | (false, p3) => some (none, p3)
        | (true, p3) => do
            let rb ← parseBlockStatementF f p3
            some (some (.funcLit tok rp.1 rb.1), rb.2)

/-- `parser.parseFunctionParameters`: nil on a failed closing-paren check. -/
def parseFunctionParametersF : Nat → Parser → Option (Option (List Ident) × Parser)
  | 0, _ => none
  | f + 1, p =>
    if p.peekTokenIs token.RPAREN then some (some [], p.nextToken)
    else
      let p1 := p.nextToken
      do
        let rl ← paramsLoopF f [⟨p1.curToken, p1.curToken.literal⟩] p1
        match rl.2.expectPeek token.RPAREN with
        | (false, p3) => some (none, p3)
        | (true, p3) => some (some rl.1, p3)

/-- The comma loop of `parseFunctionParameters`. -/
def paramsLoopF : Nat → List Ident → Parser → Option (List Ident × Parser)
  | 0, _, _ => none
  | f + 1, acc, p =>
    if p.peekTokenIs token.COMMA then
      let p1 := p.nextToken.nextToken
      paramsLoopF f (acc ++ [⟨p1.curToken, p1.curToken.literal⟩]) p1
    else some (acc, p)

/-- `parser.parseBlockStatement` (never nil). -/
def parseBlockStatementF : Nat → Parser → Option (Block × Parser)
  | 0, _ => none
  | f + 1, p =>
    let tok := p.curToken
    blockLoopF f tok [] p.nextToken

/-- The statement loop of `parseBlockStatement` (until `}` or EOF). -/
def blockLoopF : Nat → Token → List Stmt → Parser → Option (Block × Parser)
  | 0, _, _, _ => none
  | f + 1, tok, acc, p =>
    if p.curTokenIs token.RBRACE = false ∧ p.curTokenIs token.EOF = false then do
      let r ← parseStatementF f p
      let acc2 := match r.1 with
        | some s => acc ++ [s]
        | none => acc
      blockLoopF f tok acc2 r.2.nextToken
    else some (.mk tok acc, p)

/-- `parser.parseCallExpression`: always returns a (possibly partial) node
wrapping whatever `parseCallArguments` produced — including nil. -/
def parseCallExprF : Nat → Option Expr → Parser → Option (Option Expr × Parser)
  | 0, _, _ => none
  | f + 1, left, p =>
    let tok := p.curToken
    do
      let ra ← parseCallArgumentsF f p
      some (some (.callE tok left ra.1), ra.2)

/-- `parser.parseCallArguments`: nil on a failed closing-paren check. -/
def parseCallArgumentsF : Nat → Parser → Option (Option (List (Option Expr)) × Parser)
  | 0, _ => none
  | f + 1, p =>
    if p.peekTokenIs token.RPAREN then some (some [], p.nextToken)
    else do
      let r ← parseExpressionF f LOWEST p.nextToken
      let rl ← argsLoopF f [r.1] r.2
      match rl.2.expectPeek token.RPAREN with
      | (false, p3) => some (none, p3)
      | (true, p3) => some (some rl.1, p3)

/-- The comma loop of `parseCallArguments`. -/
def argsLoopF : Nat → List (Option Expr) → Parser → Option (List (Option Expr) × Parser)
  | 0, _, _ => none
  | f + 1, acc, p =>
    if p.peekTokenIs token.COMMA then do
      let r ← parseExpressionF f LOWEST p.nextToken.nextToken
      argsLoopF f (acc ++ [r.1]) r.2
    else some (acc, p)

end

/-- `parser.ParseProgram`, with fuel. -/
def ParseProgramF : Nat → Parser → Option (List Stmt × Parser)
  | 0, _ => none
  | f + 1, p => parseProgramLoopF f [] p

/-- Lex and parse a source string with the given fuel, returning the program's
statements and the final parser state (with its error list). -/
def parseSource (fuel : Nat) (input : String) : Option (List Stmt × Parser) :=
  ParseProgramF fuel (Parser.new input)

/-- Parse a source string and render the resulting program. -/
def parseAndRender (fuel : Nat) (input : String) : Option (Option String) :=
  (parseSource fuel input).map (fun r => programString r.1)


-- ---------------------------------------------------------------------------
-- Evaluation engine.  The repository's `monkey_kd/evaluator` and
-- `monkey_kd/object` packages are not among the provided sources (only the
-- REPL calls them), so the evaluator is modelled from spec sections 3 and 4.4.
-- Environment mutation is threaded value-style through evaluation; aliasing
-- of captured closure environments is not modelled (not needed for the claims
-- checked against this model).
-- ---------------------------------------------------------------------------

mutual

/-- Modelled from the spec: the runtime value type of the missing
`monkey_kd/object` package — a tagged union of Integer, Boolean, Null, the
internal ReturnValue signal, Error, and Function values capturing their
defining environment. -/
inductive Obj where
  | integer : Int → Obj
  | boolean : Bool → Obj
  | null : Obj
  | returnValue : Obj → Obj
  | error : String → Obj
  | funcV : Option (List Ident) → Block → Env → Obj

/-- Modelled from the spec: an Environment is a name-to-value mapping plus an
optional enclosing environment. -/
inductive Env where
  | mk : List (String × Obj) → Option Env → Env

end

/-- Modelled from the spec: name lookup through the environment chain
(current store first, then the enclosing chain). -/
def Env.get : Env → String → Option Obj
  | .mk store outerOpt, name =>
    match store.find? (fun kv => kv.1 == name) with
    | some kv => some kv.2
    | none =>
      match outerOpt with
      | none => none
      | some o => Env.get o name

/-- Modelled from the spec: bind a name in the current environment (the new
binding shadows older ones in the same store). -/
def Env.set : Env → String → Obj → Env
  | .mk store outerOpt, name, v => .mk ((name, v) :: store) outerOpt

/-- Modelled from the spec: a fresh global environment with no parent. -/
def Env.new : Env := .mk [] none

/-- Modelled from the spec: truthiness — only `false` and Null are falsy. -/
def isTruthy : Obj → Bool
  | .null => false
  | .boolean false => false
  | _ => true

/-- Modelled from the spec: Error values short-circuit evaluation. -/
def isError : Obj → Bool
  | .error _ => true
  | _ => false

/-- Modelled from the spec: the type tag used in runtime error messages. -/
def objType : Obj → String
  | .integer _ => "INTEGER"
  | .boolean _ => "BOOLEAN"
  | .null => "NULL"
  | .returnValue _ => "RETURN_VALUE"
  | .error _ => "ERROR"
  | .funcV _ _ _ => "FUNCTION"

/-- Modelled from the spec: prefix operators — `!` negates truthiness, `-`
requires an Integer operand. -/
def evalPrefixOp (op : String) (v : Obj) : Obj :=
  if op == "!" then .boolean (!isTruthy v)
  else if op == "-" then
    match v with
    | .integer n => .integer (-n)
    | _ => .error ("unknown operator: -" ++ objType v)
  else .error ("unknown operator: " ++ op ++ objType v)

/-- Modelled from the spec: infix operators — arithmetic and comparison on two
Integers, equality on two Booleans, otherwise a type-mismatch/unknown-operator
Error. -/
def evalInfixOp (op : String) (l r : Obj) : Obj :=
  match l, r with
  | .integer a, .integer b =>
    if op == "+" then .integer (a + b)
    else if op == "-" then .integer (a - b)
    else if op == "*" then .integer (a * b)
    else if op == "/" then .integer (a / b)
    else if op == "<" then .boolean (a < b)
    else if op == ">" then .boolean (b < a)
    else if op == "==" then .boolean (a == b)
    else if op == "!=" then .boolean (a != b)
    else .error ("unknown operator: INTEGER " ++ op ++ " INTEGER")
  | .boolean a, .boolean b =>
    if op == "==" then .boolean (a == b)
    else if op == "!=" then .boolean (a != b)
    else .error ("unknown operator: BOOLEAN " ++ op ++ " BOOLEAN")
  | a, b =>
    if objType a != objType b then
      .error ("type mismatch: " ++ objType a ++ " " ++ op ++ " " ++ objType b)
    else .error ("unknown operator: " ++ objType a ++ " " ++ op ++ " " ++ objType b)

mutual

/-- Modelled from the spec: evaluate a statement sequence in order, stopping
early on a ReturnValue or Error result, which propagates unchanged; the value
of the sequence is otherwise the last statement's value. -/
def evalStmtsF : Nat → List Stmt → Env → Obj → Option (Obj × Env)
  | 0, _, _, _ => none
  | _ + 1, [], env, last => some (last, env)
  | f + 1, s :: rest, env, _ => do
      let r ← evalStmtF f s env
      match r.1 with
      | .returnValue v => some (.returnValue v, r.2)
      | .error m => some (.error m, r.2)
      | v => evalStmtsF f rest r.2 v

/-- Modelled from the spec: statement evaluation — `let` binds in the current
environment, `return` wraps in the ReturnValue signal, an expression statement
evaluates its expression. -/
def evalStmtF : Nat → Stmt → Env → Option (Obj × Env)
  | 0, _, _ => none
  | f + 1, .letS _ name value, env =>
    (match value with
     | none => some (Obj.null, env)
     | some e => do
        let r ← evalExprF f e env
        if isError r.1 then some (r.1, r.2)
        else some (Obj.null, r.2.set name.value r.1))
  | f + 1, .returnS _ value, env =>
    (match value with
     | none => some (Obj.returnValue Obj.null, env)
     | some e => do
        let r ← evalExprF f e env
        if isError r.1 then some (r.1, r.2)
        else some (Obj.returnValue r.1, r.2))
  | f + 1, .exprS _ value, env =>
    (match value with
     | none => some (Obj.null, env)
     | some e => evalExprF f e env)

/-- Modelled from the spec: expression evaluation (section 4.4), threading the
current environment.  A function call evaluates the callee and the arguments
left to right (stopping on an Error), runs the body in a fresh environment
whose parent is the function's captured environment, and unwraps a
ReturnValue result at the call boundary. -/
def evalExprF : Nat → Expr → Env → Option (Obj × Env)
  | 0, _, _ => none
  | _ + 1, .identE i, env =>
    (match env.get i.value with
     | some v => some (v, env)
     | none => some (.error ("identifier not found: " ++ i.value), env))
  | _ + 1, .intLit _ v, env => some (.integer v, env)
  | _ + 1, .boolE _ b, env => some (.boolean b, env)
  | f + 1, .prefixE _ op right, env =>
    (match right with
     | none => some (.error "nil operand", env)
     | some r => do
        let rv ← evalExprF f r env
        if isError rv.1 then some rv
        else some (evalPrefixOp op rv.1, rv.2))
  | f + 1, .infixE _ left op right, env =>
    (match left, right with
     | some l, some r => do
        let lv ← evalExprF f l env
        if isError lv.1 then some lv
        else do
          let rv ← evalExprF f r lv.2
          if isError rv.1 then some rv
          else some (evalInfixOp op lv.1 rv.1, rv.2)
     | _, _ => some (.error "nil operand", env))
  | f + 1, .ifE _ cond cons alt, env =>
    (match cond with
     | none => some (.error "nil condition", env)
     | some c => do
        let cv ← evalExprF f c env
        if isError cv.1 then some cv
        else if isTruthy cv.1 then evalBlockF f cons cv.2
        else
          match alt with
          | some b => evalBlockF f b cv.2
          | none => some (Obj.null, cv.2))
  | _ + 1, .funcLit _ params body, env => some (.funcV params body env, env)
  | f + 1, .callE _ fn args, env =>
    (match fn with
     | none => some (.error "nil function", env)
     | some fe => do
        let fv ← evalExprF f fe env
        if isError fv.1 then some fv
        else do
          let ar ← evalArgsF f (match args with
            | none => []
            | some l => l) fv.2
          match ar.1 with
          | .inl err => some (err, ar.2)
          | .inr vals =>
            match fv.1 with
            | .funcV params body fenv => do
                let ps := (match params with
                  | none => []
                  | some l => l).map Ident.value
                let br ← evalBlockF f body (Env.mk (ps.zip vals) (some fenv))
                match br.1 with
                | .returnValue v => some (v, ar.2)
                | v => some (v, ar.2)
            | other => some (.error ("not a function: " ++ objType other), ar.2))

/-- Modelled from the spec: evaluate call arguments left to right, stopping at
the first Error (`Sum.inl`). -/
def evalArgsF : Nat → List (Option Expr) → Env → Option ((Obj ⊕ List Obj) × Env)
  | 0, _, _ => none
  | _ + 1, [], env => some (.inr [], env)
  | f + 1, a :: rest, env =>
    (match a with
     | none => some (.inl (.error "nil argument"), env)
     | some e => do
        let v ← evalExprF f e env
        if isError v.1 then some (.inl v.1, v.2)
        else do
          let r ← evalArgsF f rest v.2
          match r.1 with
          | .inl err => some (.inl err, r.2)
          | .inr vs => some (.inr (v.1 :: vs), r.2))

/-- Modelled from the spec: a block evaluates its statements in sequence in
the current environment. -/
def evalBlockF : Nat → Block → Env → Option (Obj × Env)
  | 0, _, _ => none
  | f + 1, .mk _ stmts, env => evalStmtsF f stmts env Obj.null

end

/-- Modelled from the spec: parse a source string and evaluate the resulting
program in a fresh environment, as the REPL does for one input line. -/
def evalSource (fuel : Nat) (input : String) : Option Obj :=
  match parseSource fuel input with
  | none => none
  | some r =>
    match evalStmtsF fuel r.1 Env.new Obj.null with
    | none => none
    | some er => some er.1


-- ---------------------------------------------------------------------------
-- Verification layer: predicates, helper lemmas, and the claim theorems.
-- ---------------------------------------------------------------------------

/-- The lexer's cursor has passed the end of the input: `readPosition` is past
the input and the current byte is the NUL sentinel (the state `readChar`
produces whenever it reads past the end). -/
def pastEnd (st : Lexer) : Prop :=
  st.input.length ≤ st.readPosition ∧ st.char = charNul

instance (st : Lexer) : Decidable (pastEnd st) := by
  unfold pastEnd
  infer_instance

/-- The token returned by the `k`-th further `NextToken` call (0-indexed). -/
def nthToken (st : Lexer) : Nat → Token
  | 0 => st.NextToken.1
  | k + 1 => nthToken st.NextToken.2 k

/-- The lexer state after consuming the whole input `"a"`. -/
def lexDone : Lexer := (Lexer.new "a").NextToken.2

/-- A parser state stuck before a semicolon: the current token is not `;`, the
lookahead is already the end-of-input token, and the lexer is exhausted.  The
`skipToSemiF` scan preserves this state shape forever. -/
def InvEOF (p : Parser) : Prop :=
  p.curToken.type ≠ token.SEMICOLON ∧ p.peekToken = ⟨token.EOF, ""⟩ ∧ pastEnd p.lex

instance (p : Parser) : Decidable (InvEOF p) := by
  unfold InvEOF
  infer_instance

/-- The parser state over `"let x = 5"`. -/
def pC1 : Parser := Parser.new "let x = 5"

/-- The state after `let`, the identifier and `=` are consumed (current token
is the integer literal, lookahead is end-of-input). -/
def pC1expr : Parser := pC1.nextToken.nextToken.nextToken

/-- The parser state over `"let x = y;"` (current token is `let`). -/
def c7p : Parser := Parser.new "let x = y;"

/-- The statement that parsing `"let x = y;"` produces. -/
def c7stmt : Stmt :=
  Stmt.letS ⟨token.LET, "let"⟩ ⟨⟨token.IDENTIFIER, "x"⟩, "x"⟩
    (some (.identE ⟨⟨token.IDENTIFIER, "y"⟩, "y"⟩))

/-- The parser state after parsing `"let x = y;"` as a let statement. -/
def c7p2 : Parser := ((parseLetStatementF 50 c7p).getD (none, c7p)).2

/-- The decimal value of a digit run. -/
def decVal (l : List Char) : Nat :=
  l.foldl (fun a c => a * 10 + (c.toNat - '0'.toNat)) 0

/-- A parser state whose current token is the out-of-range INT literal. -/
def c8p : Parser :=
  ⟨Lexer.new "", ⟨token.INT, "9223372036854775808"⟩, ⟨token.EOF, ""⟩, []⟩

/-- The binary operator tokens registered to `parseInfixExpression`
(everything in the `precedences` map except the call-expression `(`). -/
def infixOps : List String :=
  [token.EQ, token.NOT_EQ, token.LT, token.GT,
   token.PLUS, token.MINUS, token.ASTERISK, token.SLASH]

lemma skipWhitespace_of_not_ws (st : Lexer) (h : isWS st.char = false) :
    st.skipWhitespace = st := by
  unfold Lexer.skipWhitespace
  generalize st.input.length + 1 - st.position = n
  cases n with
  | zero => rfl
  | succ g => simp [readRunF, h]

lemma NextToken_pastEnd (st : Lexer) (h : pastEnd st) :
    st.NextToken.1 = ⟨token.EOF, ""⟩ ∧ pastEnd st.NextToken.2 := by
  obtain ⟨inp, pos, rp, ch⟩ := st
  obtain ⟨hle, hch⟩ := h
  simp only at hle hch
  subst hch
  have hsw : Lexer.skipWhitespace ⟨inp, pos, rp, charNul⟩ = ⟨inp, pos, rp, charNul⟩ :=
    skipWhitespace_of_not_ws _ (by rfl)
  simp only [Lexer.NextToken, hsw]
  refine ⟨rfl, ?_⟩
  show pastEnd (Lexer.readChar ⟨inp, pos, rp, charNul⟩)
  refine ⟨?_, ?_⟩
  · show inp.length ≤ rp + 1
    omega
  · show (if inp.length ≤ rp then charNul else inp.getD rp charNul) = charNul
    rw [if_pos hle]

/-- Claim C6: for every input, once the lexer's cursor has passed the end of
the input, every subsequent `NextToken` call returns the end-of-input token
(kind EOF, empty literal), no matter how many times it is called. -/
theorem C6_eof_forever (st : Lexer) (h : pastEnd st) :
    ∀ k, nthToken st k = ⟨token.EOF, ""⟩ := by
  intro k
  induction k generalizing st with
  | zero =>
    unfold nthToken
    exact (NextToken_pastEnd st h).1
  | succ k ih =>
    unfold nthToken
    exact ih st.NextToken.2 (NextToken_pastEnd st h).2

/-- Witness for C6 at the concrete exhausted lexer state `lexDone`. -/
theorem C6_witness : pastEnd lexDone ∧ nthToken lexDone 3 = ⟨token.EOF, ""⟩ :=
  ⟨by decide, C6_eof_forever lexDone (by decide) 3⟩

lemma nextToken_InvEOF (p : Parser) (hpk : p.peekToken = ⟨token.EOF, ""⟩)
    (hlex : pastEnd p.lex) :
    p.nextToken.curToken = ⟨token.EOF, ""⟩ ∧ p.nextToken.peekToken = ⟨token.EOF, ""⟩ ∧
      pastEnd p.nextToken.lex := by
  have h := NextToken_pastEnd p.lex hlex
  unfold Parser.nextToken
  exact ⟨hpk, h.1, h.2⟩

lemma skipToSemiF_none (f : Nat) (p : Parser) (h : InvEOF p) : skipToSemiF f p = none := by
  induction f generalizing p with
  | zero => rfl
  | succ f ih =>
    obtain ⟨hcur, hpk, hlex⟩ := h
    have hc : p.curTokenIs token.SEMICOLON = false := by
      unfold Parser.curTokenIs
      exact beq_eq_false_iff_ne.mpr hcur
    have hnext := nextToken_InvEOF p hpk hlex
    simp only [skipToSemiF, hc, Bool.false_eq_true, if_false]
    exact ih p.nextToken ⟨by rw [hnext.1]; decide, hnext.2.1, hnext.2.2⟩

lemma parseExpr_pC1 (d : Nat) :
    parseExpressionF d LOWEST pC1expr = none ∨
    parseExpressionF d LOWEST pC1expr =
      some (some (.intLit ⟨token.INT, "5"⟩ 5), pC1expr) := by
  rcases d with _ | d
  · exact Or.inl rfl
  rcases d with _ | d
  · exact Or.inl rfl
  · right
    simp only [parseExpressionF, runPrefixF, infixLoopF]
    rfl

lemma parseLet_pC1 (c : Nat) : parseLetStatementF c pC1 = none := by
  rcases c with _ | c
  · rfl
  · have h1 : Parser.expectPeek pC1 token.IDENTIFIER = (true, pC1.nextToken) := rfl
    have h2 : Parser.expectPeek pC1.nextToken token.ASSIGN =
        (true, pC1.nextToken.nextToken) := rfl
    simp only [parseLetStatementF, h1, h2]
    rcases parseExpr_pC1 c with hE | hE
    · show (parseExpressionF c LOWEST pC1expr).bind _ = none
      rw [hE]
      rfl
    · show (parseExpressionF c LOWEST pC1expr).bind _ = none
      rw [hE]
      show (skipToSemiF c pC1expr).bind _ = none
      rw [skipToSemiF_none c pC1expr ⟨by decide, by decide, by decide⟩]
      rfl

lemma parseStatement_pC1 (b : Nat) : parseStatementF b pC1 = none := by
  rcases b with _ | b
  · rfl
  · exact parseLet_pC1 b

lemma parseLoop_pC1 (a : Nat) : parseProgramLoopF a [] pC1 = none := by
  rcases a with _ | a
  · rfl
  · show (parseStatementF a pC1).bind _ = none
    rw [parseStatement_pC1 a]
    rfl

/-- Claim C1: refuted by the code — `ParseProgram` does NOT terminate on every
input.  On `"let x = 5"` (no semicolon before end-of-input) the
`parseLetStatement` resynchronization loop scans for a semicolon with no
end-of-input check, and the exhausted lexer keeps yielding EOF tokens, so no
amount of fuel lets `ParseProgram` return: the Go code loops forever. -/
theorem C1_let_no_semicolon_diverges :
    ∀ fuel, ParseProgramF fuel (Parser.new "let x = 5") = none := by
  intro fuel
  rcases fuel with _ | f
  · rfl
  · exact parseLoop_pC1 f

/-- Claim C3: parsing `"1 + 2 * 3;"` yields a program whose canonical String
rendering is `"(1 + (2 * 3))"` — the product operator binds tighter than the
sum operator in the resulting AST. -/
theorem C3_product_binds_tighter :
    parseAndRender 100 "1 + 2 * 3;" = some (some "(1 + (2 * 3))") := by rfl

/-- Claim C4: chains of infix operators of the same precedence parse
left-associatively, because `parseInfixExpression` parses its right side at
the current operator's own precedence (not precedence+1): for EVERY pair of
registered infix operators of equal precedence — the equality, relational,
sum and product levels alike — `"a op1 b op2 c"` renders as
`"((a op1 b) op2 c)"`, and every three-operator chain `"a op b op c op d"` of
one operator renders as `"(((a op b) op c) op d)"`. -/
theorem C4_left_associative :
    (∀ op1 op2, op1 ∈ infixOps → op2 ∈ infixOps →
      precedenceOf op1 = precedenceOf op2 →
      parseAndRender 100 ("a " ++ op1 ++ " b " ++ op2 ++ " c") =
        some (some ("((a " ++ op1 ++ " b) " ++ op2 ++ " c)"))) ∧
    (∀ op, op ∈ infixOps →
      parseAndRender 100 ("a " ++ op ++ " b " ++ op ++ " c " ++ op ++ " d") =
        some (some ("(((a " ++ op ++ " b) " ++ op ++ " c) " ++ op ++ " d)"))) := by
  refine ⟨?_, ?_⟩
  · intro op1 op2 h1 h2 hp
    fin_cases h1 <;> fin_cases h2 <;> revert hp <;> decide
  · intro op h
    fin_cases h <;> decide

/-- Witness for C4 at the concrete same-precedence pair `+`, `-`. -/
theorem C4_witness :
    parseAndRender 100 ("a " ++ "+" ++ " b " ++ "-" ++ " c") =
      some (some ("((a " ++ "+" ++ " b) " ++ "-" ++ " c)")) :=
  C4_left_associative.1 "+" "-" (by decide) (by decide) (by decide)

/-- Claim C5: lexing `"let five = 5;"` yields exactly LET("let"),
IDENTIFIER("five"), ASSIGN("="), INT("5"), SEMICOLON(";"), then the
end-of-input token. -/
theorem C5_lex_let_five :
    lexTokens 6 (Lexer.new "let five = 5;") =
      [⟨token.LET, "let"⟩, ⟨token.IDENTIFIER, "five"⟩, ⟨token.ASSIGN, "="⟩,
       ⟨token.INT, "5"⟩, ⟨token.SEMICOLON, ";"⟩, ⟨token.EOF, ""⟩] := by rfl

/-- Claim C9: because integer conversion uses `strconv.ParseInt` with base 0,
the literal `"010"` — produced by the lexer as a plain INT digit run — is
interpreted as octal: the resulting IntegerLiteral has Value 8, not 10. -/
theorem C9_leading_zero_octal :
    (parseSource 100 "010;").map (fun r => r.1) =
      some [Stmt.exprS ⟨token.INT, "010"⟩ (some (Expr.intLit ⟨token.INT, "010"⟩ 8))] ∧
    goParseInt "010" = some 8 :=
  ⟨by rfl, by rfl⟩

/-- Claim C10: evaluating `"5 + 5 + 5 + 5 - 10"` in a fresh environment yields
the runtime value Integer 10 (evaluator modelled from the spec, see above). -/
theorem C10_eval_arithmetic :
    evalSource 100 "5 + 5 + 5 + 5 - 10" = some (Obj.integer 10) := by rfl

lemma string_fold_let (x : String) : "let" ++ " " ++ x = "let " ++ x := rfl

/-- Claim C7: any successfully parsed let statement carries the `let` token it
started on, and when its value expression is present its String rendering is
exactly `"let " ++ <ident> ++ " = " ++ <rendered expr> ++ ";"`. -/
theorem C7_let_round_trip (f : Nat) (p p2 : Parser) (s : Stmt)
    (hparse : parseLetStatementF f p = some (some s, p2))
    (hlit : p.curToken.literal = "let") :
    ∃ name val, s = Stmt.letS p.curToken name val ∧
      ∀ e estr, val = some e → exprString e = some estr →
        stmtString s = some ("let " ++ name.value ++ " = " ++ estr ++ ";") := by
  rcases f with _ | f
  · exact Option.noConfusion hparse
  · simp only [parseLetStatementF] at hparse
    split at hparse
    · simp at hparse
    · split at hparse
      · simp at hparse
      · simp only [Option.bind_eq_bind] at hparse
        rw [Option.bind_eq_some] at hparse
        obtain ⟨r, hE, hparse⟩ := hparse
        rw [Option.bind_eq_some] at hparse
        obtain ⟨ps, hS, hparse⟩ := hparse
        simp only [Option.some.injEq, Prod.mk.injEq] at hparse
        obtain ⟨hs, hp2⟩ := hparse
        refine ⟨_, r.1, hs.symm, ?_⟩
        intro e estr hval hexpr
        rw [← hs, hval]
        simp only [stmtString, hexpr, hlit, Option.bind_some, string_fold_let]
        rfl

/-- Witness for C7 at the concrete parse of `"let x = y;"`. -/
theorem C7_witness :
    ∃ name val, c7stmt = Stmt.letS c7p.curToken name val ∧
      ∀ e estr, val = some e → exprString e = some estr →
        stmtString c7stmt = some ("let " ++ name.value ++ " = " ++ estr ++ ";") :=
  C7_let_round_trip 50 c7p c7p2 c7stmt (by rfl) (by rfl)

lemma isDigit_char (c : Char) (h : isDigit c = true) : '0' ≤ c ∧ c ≤ '9' := by
  simpa [isDigit, Bool.and_eq_true, decide_eq_true_eq] using h

lemma parseUintLoop_digits (l : List Char) (hd : ∀ c ∈ l, isDigit c = true) :
    ∀ n, parseUintLoop 10 l n false =
      some (l.foldl (fun a c => a * 10 + (c.toNat - '0'.toNat)) n, false) := by
  induction l with
  | nil => intro n; rfl
  | cons c rest ih =>
    intro n
    have hc := isDigit_char c (hd c (List.mem_cons_self c rest))
    have hne : c ≠ '_' := by
      intro he
      subst he
      exact absurd hc.2 (by decide)
    have hdv : digitVal c = some (c.toNat - '0'.toNat) := by
      unfold digitVal
      rw [if_pos hc]
    have hlt : ¬ (10 ≤ c.toNat - '0'.toNat) := by
      have h1 : c.toNat ≤ 57 := hc.2
      have h0 : '0'.toNat = 48 := rfl
      omega
    simp only [parseUintLoop, if_neg hne, hdv, if_neg hlt, List.foldl_cons]
    exact ih (fun x hx => hd x (List.mem_cons_of_mem c hx)) (n * 10 + (c.toNat - '0'.toNat))

lemma detectBase_decimal (c : Char) (rest : List Char) (hc0 : c ≠ '0') :
    detectBase (c :: rest) = (10, c :: rest) := by
  unfold detectBase
  split
  · rename_i c1 rest' heq
    injection heq with h1 _
    exact absurd h1 hc0
  · rfl

lemma stripSign_nosign (c : Char) (rest : List Char) (h1 : c ≠ '+') (h2 : c ≠ '-') :
    stripSign (c :: rest) = (false, c :: rest) := by
  unfold stripSign
  split
  · rename_i rest' heq
    injection heq with ha _
    exact absurd ha h1
  · rename_i rest' heq
    injection heq with ha _
    exact absurd ha h2
  · rfl

lemma goParseUint64_digits (c : Char) (rest : List Char) (hc : isDigit c = true)
    (hc0 : c ≠ '0') (hrest : ∀ x ∈ rest, isDigit x = true) :
    goParseUint64 (c :: rest) =
      if 2 ^ 64 - 1 < decVal (c :: rest) then none else some (decVal (c :: rest)) := by
  have hd : ∀ x ∈ c :: rest, isDigit x = true := by
    intro x hx
    rcases List.mem_cons.mp hx with h | h
    · subst h; exact hc
    · exact hrest x h
  have h0 : goParseUint64 (c :: rest) =
      (match parseUintLoop (detectBase (c :: rest)).1 (detectBase (c :: rest)).2 0 false with
       | none => none
       | some (n, u) =>
         if u ∧ ¬underscoreOK (c :: rest) then none
         else if 2 ^ 64 - 1 < n then none
         else some n) := by rfl
  rw [h0]
  simp only [detectBase_decimal c rest hc0, parseUintLoop_digits (c :: rest) hd]
  simp only [Bool.false_eq_true, false_and, if_false, decVal]

lemma goParseInt_digits_overflow (c : Char) (rest : List Char)
    (hc : isDigit c = true) (hc0 : c ≠ '0')
    (hrest : ∀ x ∈ rest, isDigit x = true)
    (hbig : 2 ^ 63 ≤ decVal (c :: rest)) :
    goParseInt ⟨c :: rest⟩ = none := by
  have hcd := isDigit_char c hc
  have hplus : c ≠ '+' := by
    intro he
    subst he
    exact absurd hcd.1 (by decide)
  have hminus : c ≠ '-' := by
    intro he
    subst he
    exact absurd hcd.1 (by decide)
  have h0 : goParseInt ⟨c :: rest⟩ =
      (match goParseUint64 (stripSign (c :: rest)).2 with
       | none => none
       | some un =>
         if !(stripSign (c :: rest)).1 ∧ 2 ^ 63 ≤ un then none
         else if (stripSign (c :: rest)).1 ∧ 2 ^ 63 < un then none
         else if (stripSign (c :: rest)).1 then some (-(un : Int)) else some (un : Int)) := by rfl
  rw [h0]
  simp only [stripSign_nosign c rest hplus hminus]
  rw [goParseUint64_digits c rest hc hc0 hrest]
  by_cases hR : 2 ^ 64 - 1 < decVal (c :: rest)
  · rw [if_pos hR]
  · rw [if_neg hR]
    exact if_pos ⟨by decide, hbig⟩

/-- Counterexample to claim C8 as stated: the recorded message quotes the
literal (Go's `%q` verb), so for the out-of-range literal
`"9223372036854775808"` the parser records
`could not parse "9223372036854775808" as integer` — with quotation marks
around the literal — which differs from the unquoted message text stated in
the claim.  (The nil result and the error recording themselves are as
claimed.) -/
theorem C8_counterexample :
    (parseSource 100 "9223372036854775808;").map (fun r => (r.1, r.2.errors)) =
      some ([Stmt.exprS ⟨token.INT, "9223372036854775808"⟩ none],
            ["could not parse \"9223372036854775808\" as integer"]) ∧
    "could not parse \"9223372036854775808\" as integer" ≠
      "could not parse 9223372036854775808 as integer" :=
  ⟨by rfl, by decide⟩

/-- Claim C8 (amended): when the INT token's literal cannot be converted by
`strconv.ParseInt(lit, 0, 64)`, `parseIntegerLiteral` appends the parse error
`could not parse <%q-quoted literal> as integer` and returns nil; when
conversion succeeds it returns an IntegerLiteral carrying the converted
value.  In particular a plain decimal digit run (no leading zero) whose value
is at least `2^63` — beyond the int64 range — always fails conversion. -/
theorem C8_integer_literal_conversion (p : Parser) :
    (goParseInt p.curToken.literal = none →
      Parser.parseIntegerLiteral p =
        (none, p.addError ("could not parse " ++ goQuote p.curToken.literal ++ " as integer"))) ∧
    (∀ v, goParseInt p.curToken.literal = some v →
      Parser.parseIntegerLiteral p = (some (.intLit p.curToken v), p)) ∧
    (∀ c rest, p.curToken.literal = ⟨c :: rest⟩ → isDigit c = true → c ≠ '0' →
      (∀ x ∈ rest, isDigit x = true) → 2 ^ 63 ≤ decVal (c :: rest) →
      goParseInt p.curToken.literal = none) := by
  refine ⟨?_, ?_, ?_⟩
  · intro h
    unfold Parser.parseIntegerLiteral
    rw [h]
  · intro v h
    unfold Parser.parseIntegerLiteral
    rw [h]
  · intro c rest hl hc hc0 hrest hbig
    rw [hl]
    exact goParseInt_digits_overflow c rest hc hc0 hrest hbig

/-- Witness for C8 at the concrete out-of-range literal. -/
theorem C8_witness :
    Parser.parseIntegerLiteral c8p =
      (none, c8p.addError ("could not parse " ++ goQuote "9223372036854775808" ++ " as integer")) :=
  (C8_integer_literal_conversion c8p).1 (by rfl)

-- Sanity checks of the embedding against the behavior of the Go sources and
-- of `strconv.ParseInt(_, 0, 64)` on boundary inputs.
example : goParseInt "5" = some 5 := by rfl
example : goParseInt "0" = some 0 := by rfl
example : goParseInt "9223372036854775807" = some 9223372036854775807 := by rfl
example : goParseInt "-9223372036854775808" = some (-9223372036854775808) := by rfl
example : goParseInt "0x1f" = some 31 := by rfl
example : goParseInt "1_0" = some 10 := by rfl
example : goParseInt "1__0" = none := by rfl
example : goParseInt "09" = none := by rfl
example : goQuote "010" = "\"010\"" := by rfl
example : stmtString (.letS ⟨token.LET, "let"⟩ ⟨⟨token.IDENTIFIER, "myVar"⟩, "myVar"⟩
    (some (.identE ⟨⟨token.IDENTIFIER, "anotherVar"⟩, "anotherVar"⟩))) =
    some "let myVar = anotherVar;" := by rfl
example : parseAndRender 100 "-a * b" = some (some "((-a) * b)") := by rfl
example : parseAndRender 100 "!-a" = some (some "(!(-a))") := by rfl
example : parseAndRender 200 "let add = fn(x, y) { x + y; };" =
  some (some "let add = fn(x, y) (x + y);") := by rfl
example : evalSource 200 "if (1 > 2) { 10 }" = some Obj.null := by rfl
example : evalSource 200 "if (1 < 2) { 10 } else { 20 }" = some (Obj.integer 10) := by rfl
example : evalSource 400 "let add = fn(x, y) { x + y; }; add(2, 3);" = some (Obj.integer 5) := by rfl
example : evalSource 200 "foobar" = some (Obj.error "identifier not found: foobar") := by rfl
example : evalSource 200 "5 + true;" = some (Obj.error "type mismatch: INTEGER + BOOLEAN") := by rfl
